import Mathlib

/-
Verification development for src/RTS_Data/FormattedData/BidDSJson/datamodel.py.

The source file defines pydantic (v1) models deriving from BidDSJsonBaseModel,
whose Config sets:
    anystr_strip_whitespace = True      (string values are stripped)
    validate_assignment = True
    validate_all = True
    extra = "forbid"                    (undeclared fields are rejected)
    allow_population_by_field_name = True
and the concrete model classes
    Generator (uid : str, bus : str)
    Network   (generators : List[Generator])
    Scenario  (no fields)
    Model     (network : Network, scenario : Scenario)
plus load / load_data / dump_data / serialize_model / serialize_model_data /
_serialize_model_item / schema_json.

The embedding below reproduces, for these four model classes, the behaviour of
pydantic v1's validate_model as configured by that Config:
  - for each declared field, in declaration order, the input value is looked up
    by the field's alias (no field declares an alias, so alias = field name);
    a missing required field contributes a value_error.missing error;
  - a present value is run through the field's validators: for str fields
    pydantic's str_validator (which coerces int/float/bool to str) followed by
    whitespace stripping (anystr_strip_whitespace); for model-typed fields a
    dict value recurses into the nested model's validation, a non-dict value
    yields type_error.dict, None yields type_error.none.not_allowed;
    for List[...] fields a non-list yields type_error.list and a list is
    validated element by element, every failing element contributing its
    errors (pydantic does not stop at the first failing element);
  - errors carry their location: the field name, and the element index for
    sequence elements, prefixed by the enclosing field names;
  - with extra = "forbid", every input key that is not a declared field
    contributes a value_error.extra error; pydantic collects the extra names
    as a set and sorts them (for f in sorted(extra)) after the field errors;
  - if any error was collected the whole record is rejected with a
    ValidationError carrying the error list; otherwise the instance is built.

Machine integers do not arise; JSON numbers are modelled as Int (the float
case is outside the embedding).  Python dicts are modelled as association
lists; a dict corresponds to a list without duplicate keys, and lookup takes
the first binding.
-/

/-- JSON-like raw values handed to validation (the output of json.load):
null, booleans, (integer) numbers, strings, arrays, objects. -/
inductive Json where
  | null
  | bool (b : Bool)
  | int (n : Int)
  | str (s : String)
  | arr (elems : List Json)
  | obj (fields : List (String × Json))

/-- A raw record: the keyword-argument dict passed to a model constructor. -/
abbrev RawRec := List (String × Json)

/-- Python str.strip() on the characters Python treats as ASCII whitespace.
(Python also strips some non-ASCII unicode spaces; the embedding restricts
strings to the ASCII whitespace set ' ', TAB, LF, CR, VT, FF.) -/
def pyIsSpace (c : Char) : Bool :=
  c = ' ' || c = '\t' || c = '\n' || c = '\r' || c = '\x0b' || c = '\x0c'

/-- Drop leading and trailing characters satisfying p from a character list
(str.strip() at the level of the underlying character sequence). -/
def stripChars (p : Char → Bool) (l : List Char) : List Char :=
  ((l.dropWhile p).reverse.dropWhile p).reverse

/-- Python str.strip(): drop leading and trailing whitespace characters. -/
def pyStrip (s : String) : String :=
  String.mk (stripChars pyIsSpace s.data)

/-- Locations inside a record, as in pydantic error locs: a field name or a
sequence index. -/
inductive Loc where
  | fld (name : String)
  | idx (i : Nat)
  deriving DecidableEq, Repr

/-- The pydantic error kinds that can arise for these models:
value_error.missing, value_error.extra, type_error.none.not_allowed,
type_error.str, type_error.list, type_error.dict, and the plain type_error
produced when _apply_validators wraps the TypeError that cls(** d) raises
for a coerced dict with non-string keys ("keywords must be strings"). -/
inductive ErrKind where
  | missing
  | extraForbidden
  | noneNotAllowed
  | strType
  | listType
  | dictType
  | typeErrorKeywords
  deriving DecidableEq, Repr

/-- One entry of a pydantic ValidationError: its location and kind. -/
structure VErr where
  loc : List Loc
  kind : ErrKind
  deriving DecidableEq, Repr

/-- Prefix every error location with the enclosing field/index path
(pydantic's ErrorWrapper nesting). -/
def locPrefix (pre : List Loc) (es : List VErr) : List VErr :=
  es.map (fun e => ⟨pre ++ e.loc, e.kind⟩)

/-- pydantic v1 validators.str_validator as it applies to JSON input values:
strings pass through, ints/floats/bools are converted with Python str(),
anything else is a type_error.str.  None is rejected earlier by the field
machinery (allow_none is false for these fields): type_error.none.not_allowed. -/
def str_validator : Json → Except ErrKind String
  | .str s => .ok s
  | .int n => .ok (Int.repr n)
  | .bool b => .ok (if b then "True" else "False")
  | .null => .error .noneNotAllowed
  | .arr _ => .error .strType
  | .obj _ => .error .strType

/-- input_data.get(field.alias): look a key up in the record.  Python dicts
have unique keys, so taking the first binding of the association list agrees
with dict lookup on records that come from a dict. -/
def lookupRec : RawRec → String → Option Json
  | [], _ => none
  | (k, v) :: rest, n => if k = n then some v else lookupRec rest n

/-- keys of the record (input_data.keys()). -/
def keysOf (rec : RawRec) : List String := rec.map (fun kv => kv.1)

/-- Validation of one declared str field: look the name up in the record
(value_error.missing when absent), run str_validator, then strip whitespace
(Config.anystr_strip_whitespace). Errors are located at the field name. -/
def strField (name : String) (rec : RawRec) : Except (List VErr) String :=
  match lookupRec rec name with
  | none => .error [⟨[.fld name], .missing⟩]
  | some v =>
    match str_validator v with
    | .ok s => .ok (pyStrip s)
    | .error k => .error [⟨[.fld name], k⟩]

/-- Python string comparison on the underlying characters: code-point
lexicographic, as Python's default str ordering. -/
def pyStrLtChars : List Char → List Char → Bool
  | [], [] => false
  | [], _ :: _ => true
  | _ :: _, [] => false
  | c1 :: r1, c2 :: r2 =>
    if c1.toNat < c2.toNat then true
    else if c2.toNat < c1.toNat then false
    else pyStrLtChars r1 r2

/-- Python str ordering (a < b), code-point lexicographic. -/
def pyStrLt (a b : String) : Bool := pyStrLtChars a.data b.data

/-- Python sorted insertion of a string into a sorted list: x is placed
before the first element it is not greater than (sorted() is stable and
ascending). -/
def insertSorted (x : String) : List String → List String
  | [] => [x]
  | y :: rest => if pyStrLt y x then y :: insertSorted x rest else x :: y :: rest

/-- Python sorted() on a list of strings (insertion sort; only the resulting
order matters). -/
def sortStrings : List String → List String
  | [] => []
  | x :: rest => insertSorted x (sortStrings rest)

/-- Collapse duplicates, as building the Python set input_data.keys() -
fields_set does.  (Records originating from dicts have no duplicates.) -/
def dedupKeys : List String → List String
  | [] => []
  | x :: rest => if x ∈ rest then dedupKeys rest else x :: dedupKeys rest

/-- Config.extra = "forbid": every input key that is not a declared field
name becomes a value_error.extra error; pydantic emits them after the field
errors, sorted (for f in sorted(extra)). -/
def extraErrors (declared : List String) (rec : RawRec) : List VErr :=
  (sortStrings (dedupKeys ((keysOf rec).filter (fun k => !(declared.contains k))))).map
    (fun f => ⟨[.fld f], .extraForbidden⟩)

/-- validate_model's final step for a two-field model: if any field or extra
error was collected the record is rejected with all of them (field errors in
declaration order, then the extra errors), otherwise the instance is built. -/
def combine2 (f : α → β → γ) (ra : Except (List VErr) α) (rb : Except (List VErr) β)
    (ex : List VErr) : Except (List VErr) γ :=
  match ra, rb with
  | .ok a, .ok b => if ex.isEmpty then .ok (f a b) else .error ex
  | .ok _, .error eb => .error (eb ++ ex)
  | .error ea, .ok _ => .error (ea ++ ex)
  | .error ea, .error eb => .error (ea ++ eb ++ ex)

/-- validate_model's final step for a one-field model. -/
def combine1 (f : α → γ) (ra : Except (List VErr) α) (ex : List VErr) :
    Except (List VErr) γ :=
  match ra with
  | .ok a => if ex.isEmpty then .ok (f a) else .error ex
  | .error ea => .error (ea ++ ex)

/-- validate_model's final step for a model with no declared fields. -/
def combine0 (c : γ) (ex : List VErr) : Except (List VErr) γ :=
  if ex.isEmpty then .ok c else .error ex

/-- class Generator(BidDSJsonBaseModel): uid : str, bus : str.  A validated
instance; validation (run on every construction and assignment) guarantees
the stored strings are stripped. -/
structure Generator where
  uid : String
  bus : String
  deriving DecidableEq, Repr

/-- Generator(**rec): pydantic validate_model for the Generator class.
Fields in declaration order: uid, bus; then the extra-field check. -/
def Generator.validateRec (rec : RawRec) : Except (List VErr) Generator :=
  combine2 Generator.mk (strField "uid" rec) (strField "bus" rec)
    (extraErrors ["uid", "bus"] rec)

/-- Result of validating a value against a nested model type (pydantic v1
BaseModel.validate, after the field's None check): an instance, the nested
ValidationError's entries (to be prefixed with the enclosing location), or
an error of the value itself. -/
inductive ModelValueRes (α : Type) where
  | ok (a : α)
  | nested (es : List VErr)
  | bad (k : ErrKind)

/-- One element of an iterable passed to Python dict(): it must itself be
an iterable of exactly two items.  On the JSON grammar: a two-element array
yields (first, second); a two-character string yields its characters as
one-character strings; a two-entry mapping, iterated as its keys, yields
the pair of keys; everything else raises TypeError (not iterable) or
ValueError (wrong length). -/
def seqAsPair : Json → Option (Json × Json)
  | .arr [k, v] => some (k, v)
  | .str s =>
    match s.data with
    | [c1, c2] => some (.str (String.mk [c1]), .str (String.mk [c2]))
    | _ => none
  | .obj [kv1, kv2] => some (.str kv1.1, .str kv2.1)
  | _ => none

/-- Whether a value can be a dict key (Python hashability on the JSON
grammar: lists and dicts are unhashable, everything else is hashable). -/
def hashableKey : Json → Bool
  | .arr _ => false
  | .obj _ => false
  | _ => true

/-- dict(list): every element must convert to a key-value pair with a
hashable key; any failure raises, which BaseModel.validate turns into
type_error.dict. -/
def dictPairs : List Json → Option (List (Json × Json))
  | [] => some []
  | e :: rest =>
    match seqAsPair e with
    | none => none
    | some (k, v) =>
      if hashableKey k then (dictPairs rest).map (fun ps => (k, v) :: ps) else none

/-- Python dict(value) for a non-dict value: an empty string yields the
empty dict (iterating a nonempty string yields one-character strings, which
are not pairs, so it raises ValueError); a list is converted element-wise; a
dict is copied; booleans and numbers are not iterable and raise TypeError.
None never reaches this point (the field machinery checks it first). -/
def pyDict : Json → Option (List (Json × Json))
  | .str s => if s.data.isEmpty then some [] else none
  | .arr xs => dictPairs xs
  | .obj kvs => some (kvs.map (fun kv => (Json.str kv.1, kv.2)))
  | _ => none

/-- cls(** d) requires every key of d to be a string; a non-string key
raises TypeError("keywords must be strings"). -/
def allStrKeys : List (Json × Json) → Option (List (String × Json))
  | [] => some []
  | (k, v) :: rest =>
    match k with
    | .str s => (allStrKeys rest).map (fun ps => (s, v) :: ps)
    | _ => none

/-- Python dict insertion: an existing key keeps its position and takes the
new value; a new key is appended at the end. -/
def dictInsertStr : RawRec → String → Json → RawRec
  | [], k, v => [(k, v)]
  | (k', v') :: rest, k, v =>
    if k' = k then (k', v) :: rest else (k', v') :: dictInsertStr rest k v

/-- Build a dict from key-value pairs in iteration order (a later duplicate
key overwrites the earlier value, keeping the first position), as dict()
does. -/
def buildDict : RawRec → List (String × Json) → RawRec
  | d, [] => d
  | d, (k, v) :: rest => buildDict (dictInsertStr d k v) rest

/-- The dict(value)-then-cls(**) path of BaseModel.validate for a value
that is neither a dict nor None: dict(value) failing raises DictError
(type_error.dict); cls(** d) with a non-string key raises a TypeError that
_apply_validators wraps as a plain type_error at the field; otherwise the
coerced dict is validated recursively. -/
def modelValueCoerce (validateSub : RawRec → Except (List VErr) α) (v : Json) :
    ModelValueRes α :=
  match pyDict v with
  | none => .bad .dictType
  | some pairs =>
    match allStrKeys pairs with
    | none => .bad .typeErrorKeywords
    | some spairs =>
      match validateSub (buildDict [] spairs) with
      | .ok m => .ok m
      | .error es => .nested es

/-- pydantic v1 BaseModel.validate on a field value (the None check has
already produced type_error.none.not_allowed): a dict is validated with
cls(**value); any other value goes through the dict(value) coercion.  A
nested ValidationError (a ValueError subclass) is caught by
_apply_validators and its entries are reported under the enclosing
location. -/
def modelValue (validateSub : RawRec → Except (List VErr) α) : Json → ModelValueRes α
  | .obj kvs =>
    match validateSub kvs with
    | .ok m => .ok m
    | .error es => .nested es
  | .null => .bad .noneNotAllowed
  | .str s => modelValueCoerce validateSub (.str s)
  | .arr xs => modelValueCoerce validateSub (.arr xs)
  | .bool b => modelValueCoerce validateSub (.bool b)
  | .int n => modelValueCoerce validateSub (.int n)

/-- Validation of one element of a List[Generator] field value via
BaseModel.validate (including its dict coercion); errors are located at
(field, index, ...). -/
def genElem (name : String) (i : Nat) (x : Json) : Except (List VErr) Generator :=
  match modelValue Generator.validateRec x with
  | .ok g => .ok g
  | .nested es => .error (locPrefix [.fld name, .idx i] es)
  | .bad k => .error [⟨[.fld name, .idx i], k⟩]

/-- Element-wise validation of a List[Generator] value starting at index i:
pydantic validates every element and concatenates the errors of all failing
elements, in index order. -/
def genElems (name : String) : Nat → List Json → Except (List VErr) (List Generator)
  | _, [] => .ok []
  | i, x :: rest =>
    match genElem name i x, genElems name (i + 1) rest with
    | .ok g, .ok gs => .ok (g :: gs)
    | .ok _, .error es => .error es
    | .error es, .ok _ => .error es
    | .error es, .error es' => .error (es ++ es')

/-- Validation of the declared field generators : List[Generator]: missing
when absent; a non-list value is type_error.list (None first:
type_error.none.not_allowed); a list is validated element-wise. -/
def genListField (name : String) (rec : RawRec) : Except (List VErr) (List Generator) :=
  match lookupRec rec name with
  | none => .error [⟨[.fld name], .missing⟩]
  | some (.arr xs) => genElems name 0 xs
  | some .null => .error [⟨[.fld name], .noneNotAllowed⟩]
  | some _ => .error [⟨[.fld name], .listType⟩]

/-- class Network(BidDSJsonBaseModel): generators : List[Generator]. -/
structure Network where
  generators : List Generator
  deriving DecidableEq, Repr

/-- Network(**rec): pydantic validate_model for the Network class. -/
def Network.validateRec (rec : RawRec) : Except (List VErr) Network :=
  combine1 Network.mk (genListField "generators" rec)
    (extraErrors ["generators"] rec)

/-- class Scenario(BidDSJsonBaseModel): pass -- no declared fields. -/
structure Scenario where
  deriving DecidableEq, Repr

/-- Scenario(**rec): only the extra-field check applies. -/
def Scenario.validateRec (rec : RawRec) : Except (List VErr) Scenario :=
  combine0 ⟨⟩ (extraErrors [] rec)

/-- Validation of a declared nested-model field via BaseModel.validate
(including its dict coercion), the field name prefixed to nested error
locations. -/
def subModelField (name : String) (validateSub : RawRec → Except (List VErr) α)
    (rec : RawRec) : Except (List VErr) α :=
  match lookupRec rec name with
  | none => .error [⟨[.fld name], .missing⟩]
  | some v =>
    match modelValue validateSub v with
    | .ok m => .ok m
    | .nested es => .error (locPrefix [.fld name] es)
    | .bad k => .error [⟨[.fld name], k⟩]

/-- class Model(BidDSJsonBaseModel): network : Network, scenario : Scenario. -/
structure Model where
  network : Network
  scenario : Scenario
  deriving DecidableEq, Repr

/-- Model(**rec): pydantic validate_model for the Model class. -/
def Model.validateRec (rec : RawRec) : Except (List VErr) Model :=
  combine2 Model.mk
    (subModelField "network" Network.validateRec rec)
    (subModelField "scenario" Scenario.validateRec rec)
    (extraErrors ["network", "scenario"] rec)

/-- The four Entity Types (model classes) declared in datamodel.py. -/
inductive EntityType where
  | generator
  | network
  | scenario
  | model
  deriving DecidableEq, Repr

/-- The declared semantic type of a field, as in the class declarations. -/
inductive FKind where
  | fstr
  | flistGenerator
  | fnetwork
  | fscenario
  deriving DecidableEq, Repr

/-- The field registry: each Entity Type's declared fields, in declaration
order, with their semantic types (read off the class bodies). -/
def fieldKinds : EntityType → List (String × FKind)
  | .generator => [("uid", .fstr), ("bus", .fstr)]
  | .network => [("generators", .flistGenerator)]
  | .scenario => []
  | .model => [("network", .fnetwork), ("scenario", .fscenario)]

/-- The declared field names of an Entity Type. -/
def declaredNames (t : EntityType) : List String := (fieldKinds t).map (fun kv => kv.1)

/-- The Lean type of validated instances of each Entity Type. -/
def Inst : EntityType → Type
  | .generator => Generator
  | .network => Network
  | .scenario => Scenario
  | .model => Model

/-- cls(**rec): dispatch to the class's pydantic validation. -/
def validateData : (t : EntityType) → RawRec → Except (List VErr) (Inst t)
  | .generator => Generator.validateRec
  | .network => Network.validateRec
  | .scenario => Scenario.validateRec
  | .model => Model.validateRec

/-- Characterizes the reachable (validated) Generator instances: every
construction or assignment path runs the validators, which strip the string
fields, so the stored strings are strip-fixed. -/
def Generator.wfB (g : Generator) : Bool :=
  (pyStrip g.uid == g.uid) && (pyStrip g.bus == g.bus)

/-- Reachable Network instances: every contained Generator is reachable. -/
def Network.wfB (n : Network) : Bool := n.generators.all Generator.wfB

/-- Reachable Scenario instances (no fields, always well-formed). -/
def Scenario.wfB (_ : Scenario) : Bool := true

/-- Reachable Model instances. -/
def Model.wfB (m : Model) : Bool := Network.wfB m.network && Scenario.wfB m.scenario

/-- Reachable (validated) instances of each Entity Type. -/
def wfInst : (t : EntityType) → Inst t → Bool
  | .generator => Generator.wfB
  | .network => Network.wfB
  | .scenario => Scenario.wfB
  | .model => Model.wfB

/-- model.dict(by_alias=...): pydantic's conversion of a Generator instance
to a plain dict.  No field declares an alias, so field.alias = field.name and
by_alias does not change the keys. -/
def Generator.dict_ (g : Generator) (_by_alias : Bool) : RawRec :=
  [("uid", .str g.uid), ("bus", .str g.bus)]

/-- Network.dict: the generators field becomes a list of plain dicts. -/
def Network.dict_ (n : Network) (by_alias : Bool) : RawRec :=
  [("generators", .arr (n.generators.map (fun g => .obj (g.dict_ by_alias))))]

/-- Scenario.dict: no fields. -/
def Scenario.dict_ (_ : Scenario) (_by_alias : Bool) : RawRec := []

/-- Model.dict: nested models become nested dicts. -/
def Model.dict_ (m : Model) (by_alias : Bool) : RawRec :=
  [("network", .obj (m.network.dict_ by_alias)),
   ("scenario", .obj (m.scenario.dict_ by_alias))]

/-- model.dict for any Entity Type. -/
def instDict : (t : EntityType) → Inst t → Bool → RawRec
  | .generator => Generator.dict_
  | .network => Network.dict_
  | .scenario => Scenario.dict_
  | .model => Model.dict_


mutual

/-- serialize_model_data(data): for key, val in data.items():
data[key] = _serialize_model_item(val); return data.  On an association list
this is a map over the values. -/
def serialize_model_data : List (String × Json) → List (String × Json)
  | [] => []
  | (k, v) :: rest => (k, serialize_model_item v) :: serialize_model_data rest

/-- The list comprehension [_serialize_model_item(x) for x in val]. -/
def serialize_model_list : List Json → List Json
  | [] => []
  | x :: rest => serialize_model_item x :: serialize_model_list rest

/-- _serialize_model_item(val): recurse into dicts and lists, return every
other value unchanged.  (The source name carries a leading underscore that
marks it module-private in Python.) -/
def serialize_model_item : Json → Json
  | .obj kvs => .obj (serialize_model_data kvs)
  | .arr xs => .arr (serialize_model_list xs)
  | .null => .null
  | .bool b => .bool b
  | .int n => .int n
  | .str s => .str s

end

/-- serialize_model(model, by_alias=True, exclude=None):
serialize_model_data(model.dict(by_alias=by_alias, exclude=exclude)).
pydantic's exclude drops the named top-level fields from the dict; the claims
under study use exclude=None, modelled as the empty exclusion list. -/
def serialize_model (t : EntityType) (m : Inst t) (by_alias : Bool)
    (exclude : List String) : RawRec :=
  serialize_model_data ((instDict t m by_alias).filter (fun kv => !(exclude.contains kv.1)))

/-- Python-level exceptions surfaced by the loader.  nameError carries the
undefined name and, when it is raised while handling another exception, that
original exception as implicit context (PEP 3134). -/
inductive PyExc where
  | osError
  | jsonDecodeError
  | typeError
  | validationError (es : List VErr)
  | nameError (missing : String) (context : Option PyExc)

/-- What reading a file can yield: content that is not valid JSON, or a
parsed JSON document. Absence from the file system models an unreadable
file (open() raises OSError). -/
inductive FileData where
  | invalidJson
  | jsonContent (j : Json)

/-- The process state the loader touches: the current working directory
(the Resolution Context base of the spec) and the file system, keyed by
(directory, file name). -/
structure World where
  cwd : String
  fs : List ((String × String) × FileData)

/-- Look a file up by directory and name. -/
def fsLookup : List ((String × String) × FileData) → String → String → Option FileData
  | [], _, _ => none
  | (k, d) :: rest, dir, name =>
    if k.1 = dir && k.2 = name then some d else fsLookup rest dir name

/-- load_data(filename): open the file (OSError when unreadable) and parse it
with json.load (the source logs and re-raises the JSONDecodeError).  The name
is resolved against the current working directory, as Python open() does. -/
def load_data (w : World) (filename : String) : Except PyExc Json :=
  match fsLookup w.fs w.cwd filename with
  | none => .error .osError
  | some .invalidJson => .error .jsonDecodeError
  | some (.jsonContent j) => .ok j

/-- A Python pathlib.Path split as directory part and final component. -/
structure PyPath where
  dir : String
  name : String

/-- Whether a directory string is an absolute path (leading slash). -/
def isAbsDir (d : String) : Bool :=
  match d.data with
  | [] => false
  | c :: _ => c = '/'

/-- filename.parent.absolute(): the parent directory, made absolute against
the current working directory when it is relative. -/
def parentAbsolute (cwd : String) (p : PyPath) : String :=
  if isAbsDir p.dir then p.dir else cwd ++ "/" ++ p.dir

/-- BidDSJsonBaseModel.load(filename): save os.getcwd(), os.chdir to the
file's parent, run cls(**load_data(filename.name)) inside try/except/finally,
and os.chdir back in the finally block on every exit path.

The source's except clause is `except ValidationError:`, but ValidationError
is never imported into datamodel.py (only BaseModel and Field are).  When any
exception is raised in the try block, Python evaluates the except clause's
expression to test the match; that evaluation raises
NameError("name 'ValidationError' is not defined") with the original
exception attached as implicit context.  So every failure path -- unreadable
file, invalid JSON, a non-mapping document (**data then raises TypeError),
or a pydantic ValidationError -- surfaces to the caller as NameError.  The
finally block still runs, so the working directory is always restored.
os.chdir is modelled as total (the spec's claims do not depend on chdir
itself failing). -/
def load (t : EntityType) (w : World) (filename : PyPath) :
    Except PyExc (Inst t) × World :=
  let base_dir := parentAbsolute w.cwd filename
  let orig := w.cwd
  let w1 : World := { w with cwd := base_dir }
  let result : Except PyExc (Inst t) :=
    match load_data w1 filename.name with
    | .error e => .error (.nameError "ValidationError" (some e))
    | .ok (.obj kvs) =>
      match validateData t kvs with
      | .ok m => .ok m
      | .error es => .error (.nameError "ValidationError" (some (.validationError es)))
    | .ok _ => .error (.nameError "ValidationError" (some .typeError))
  (result, { w1 with cwd := orig })

/-- BidDSJsonBaseModel.schema_json(by_alias=True, indent=None): line 49
computes cls.schema(by_alias=by_alias) (pydantic's JSON-schema dict, which
succeeds), but line 50 is json.dumps(data, indent=indent,
cls=ExtendedJSONEncoder), and ExtendedJSONEncoder is defined or imported
nowhere in the repository: evaluating the argument raises
NameError("name 'ExtendedJSONEncoder' is not defined") before json.dumps
runs, on every call, so the schema dict is discarded and no text is ever
returned. -/
def schema_json (_t : EntityType) (_by_alias : Bool) (_indent : Option Nat) :
    Except PyExc String :=
  .error (.nameError "ExtendedJSONEncoder" none)

mutual

/-- Replace every string value anywhere in a JSON tree by its stripped form
(the "pre-trimmed" record of the whitespace-normalization property). -/
def deepTrimJson : Json → Json
  | .str s => .str (pyStrip s)
  | .arr xs => .arr (deepTrimList xs)
  | .obj kvs => .obj (deepTrimRec kvs)
  | .null => .null
  | .bool b => .bool b
  | .int n => .int n

/-- deepTrimJson on each element of an array. -/
def deepTrimList : List Json → List Json
  | [] => []
  | x :: rest => deepTrimJson x :: deepTrimList rest

/-- deepTrimJson on each value of a record (keys are left alone: the
whitespace stripping of the Config applies to values, not keys). -/
def deepTrimRec : RawRec → RawRec
  | [] => []
  | (k, v) :: rest => (k, deepTrimJson v) :: deepTrimRec rest

end

/-- Normalization of one value in a declared string-field position: only an
actual string is trimmed (numbers and booleans render without surrounding
whitespace, and other shapes never reach the stripping step). -/
def trimStrValue : Json → Json
  | .str s => .str (pyStrip s)
  | v => v

/-- Apply a per-field value normalization to a record; keys are untouched. -/
def trimWith (f : String → Json → Json) (rec : RawRec) : RawRec :=
  rec.map (fun kv => (kv.1, f kv.1 kv.2))

/-- Field-value normalization for Generator: its declared fields uid and
bus are string fields. -/
def genFieldTrim (name : String) (v : Json) : Json :=
  if name = "uid" || name = "bus" then trimStrValue v else v

/-- Pre-trimming of a Generator record: the values of its declared string
fields are trimmed. -/
def trimGeneratorRec : RawRec → RawRec := trimWith genFieldTrim

/-- Pre-trimming of one element of the generators sequence: a mapping
element is pre-trimmed as a Generator record; other shapes are left
alone (validation never strips strings inside them -- a string that dict()
coercion turns into a field name is not normalized by validation). -/
def trimGenElement : Json → Json
  | .obj kvs => .obj (trimGeneratorRec kvs)
  | v => v

/-- Pre-trimming of the generators field value: the elements of a sequence
are pre-trimmed; other shapes are left alone. -/
def trimGenListValue : Json → Json
  | .arr xs => .arr (xs.map trimGenElement)
  | v => v

/-- Field-value normalization for Network. -/
def networkFieldTrim (name : String) (v : Json) : Json :=
  if name = "generators" then trimGenListValue v else v

/-- Pre-trimming of a Network record. -/
def trimNetworkRec : RawRec → RawRec := trimWith networkFieldTrim

/-- Field-value normalization for Scenario: no declared fields, nothing is
trimmed. -/
def scenarioFieldTrim (_name : String) (v : Json) : Json := v

/-- Pre-trimming of a Scenario record. -/
def trimScenarioRec : RawRec → RawRec := trimWith scenarioFieldTrim

/-- Pre-trimming of a nested-model field value: a mapping is pre-trimmed by
the nested record's normalization; other shapes are left alone. -/
def trimObjWith (g : RawRec → RawRec) : Json → Json
  | .obj kvs => .obj (g kvs)
  | v => v

/-- Field-value normalization for Model. -/
def modelFieldTrim (name : String) (v : Json) : Json :=
  if name = "network" then trimObjWith trimNetworkRec v
  else if name = "scenario" then trimObjWith trimScenarioRec v
  else v

/-- Pre-trimming of a Model record. -/
def trimModelRec : RawRec → RawRec := trimWith modelFieldTrim

/-- Pre-trimming exactly the string values that validation itself
normalizes: the values of declared string fields, recursively through
nested-model mapping values and through sequence elements that are
mappings.  Strings elsewhere in the record -- undeclared fields' values and
strings inside non-mapping nested values -- are left alone, because
validation never strips them. -/
def trimByType : EntityType → RawRec → RawRec
  | .generator => trimGeneratorRec
  | .network => trimNetworkRec
  | .scenario => trimScenarioRec
  | .model => trimModelRec

/-- Whether a raw value is of string semantic type in the spec's sense.
This definition follows the spec's words (a string field expects a string
value), for comparison against the validator's actual behaviour on
non-string values. -/
def specIsString : Json → Bool
  | .str _ => true
  | _ => false

/-
Helper lemmas about stripping and about the characters of Python's decimal
integer rendering (Int.repr models Python str() on ints).
-/

theorem dropWhile_eq_self_of_all (p : Char → Bool) :
    ∀ l : List Char, (∀ c ∈ l, p c = false) → l.dropWhile p = l
  | [], _ => rfl
  | a :: t, h => by
      have ha := h a (by simp)
      simp [List.dropWhile_cons, ha]

theorem dropWhile_head_false (p : Char → Bool) :
    ∀ (l : List Char) (a : Char) (t : List Char), l.dropWhile p = a :: t → p a = false
  | [], a, t, h => by simp [List.dropWhile] at h
  | b :: r, a, t, h => by
      rw [List.dropWhile_cons] at h
      by_cases hb : p b = true
      · rw [if_pos hb] at h
        exact dropWhile_head_false p r a t h
      · rw [if_neg hb] at h
        injection h with h1 _
        subst h1
        simpa using hb

theorem dropWhile_sfx (p : Char → Bool) :
    ∀ l : List Char, ∃ m, m ++ l.dropWhile p = l
  | [] => ⟨[], rfl⟩
  | a :: t => by
      rw [List.dropWhile_cons]
      by_cases ha : p a = true
      · rw [if_pos ha]
        obtain ⟨m, hm⟩ := dropWhile_sfx p t
        exact ⟨a :: m, by simp [hm]⟩
      · rw [if_neg ha]
        exact ⟨[], rfl⟩

theorem stripChars_idem (p : Char → Bool) (l : List Char) :
    stripChars p (stripChars p l) = stripChars p l := by
  have hZfix := List.dropWhile_idempotent p ((l.dropWhile p).reverse)
  have h1 : (stripChars p l).dropWhile p = stripChars p l := by
    cases hc : stripChars p l with
    | nil => simp
    | cons a t =>
      obtain ⟨m, hm⟩ := dropWhile_sfx p (l.dropWhile p).reverse
      have hXeq : l.dropWhile p = a :: (t ++ m.reverse) := by
        have h2 := congrArg List.reverse hm
        simp only [List.reverse_append, List.reverse_reverse] at h2
        rw [show ((l.dropWhile p).reverse.dropWhile p).reverse = stripChars p l from rfl,
          hc] at h2
        simpa using h2.symm
      have hpa : p a = false := dropWhile_head_false p l a (t ++ m.reverse) hXeq
      simp [List.dropWhile_cons, hpa]
  calc stripChars p (stripChars p l)
      = (((stripChars p l).dropWhile p).reverse.dropWhile p).reverse := rfl
    _ = ((stripChars p l).reverse.dropWhile p).reverse := by rw [h1]
    _ = ((((l.dropWhile p).reverse.dropWhile p).reverse.reverse).dropWhile p).reverse := rfl
    _ = (((l.dropWhile p).reverse.dropWhile p).dropWhile p).reverse := by
          rw [List.reverse_reverse]
    _ = ((l.dropWhile p).reverse.dropWhile p).reverse := by rw [hZfix]
    _ = stripChars p l := rfl

theorem pyStrip_idem (s : String) : pyStrip (pyStrip s) = pyStrip s := by
  show String.mk (stripChars pyIsSpace (stripChars pyIsSpace s.data)) = _
  rw [stripChars_idem]
  rfl

theorem stripChars_eq_self (p : Char → Bool) (l : List Char)
    (h : ∀ c ∈ l, p c = false) : stripChars p l = l := by
  unfold stripChars
  rw [dropWhile_eq_self_of_all p l h]
  rw [dropWhile_eq_self_of_all p l.reverse (by intro c hc; exact h c (by simpa using hc))]
  exact List.reverse_reverse l

theorem pyStrip_eq_self (s : String) (h : ∀ c ∈ s.data, pyIsSpace c = false) :
    pyStrip s = s := by
  show String.mk (stripChars pyIsSpace s.data) = s
  rw [stripChars_eq_self pyIsSpace s.data h]

theorem digitChar_not_space (n : Nat) (h : n < 10) :
    pyIsSpace (Nat.digitChar n) = false := by
  interval_cases n <;> rfl

theorem toDigitsCore_succ (b fuel n : Nat) (ds : List Char) :
    Nat.toDigitsCore b (fuel + 1) n ds =
      if n / b = 0 then Nat.digitChar (n % b) :: ds
      else Nat.toDigitsCore b fuel (n / b) (Nat.digitChar (n % b) :: ds) := rfl

theorem toDigitsCore_not_space :
    ∀ (fuel n : Nat) (ds : List Char), (∀ c ∈ ds, pyIsSpace c = false) →
      ∀ c ∈ Nat.toDigitsCore 10 fuel n ds, pyIsSpace c = false
  | 0, _, ds, hds => hds
  | fuel + 1, n, ds, hds => by
      rw [toDigitsCore_succ]
      have hcons : ∀ c ∈ Nat.digitChar (n % 10) :: ds, pyIsSpace c = false := by
        intro c hc
        rcases List.mem_cons.mp hc with h | h
        · rw [h]
          exact digitChar_not_space (n % 10) (Nat.mod_lt n (by omega))
        · exact hds c h
      by_cases hnb : n / 10 = 0
      · rw [if_pos hnb]
        exact hcons
      · rw [if_neg hnb]
        exact toDigitsCore_not_space fuel (n / 10) (Nat.digitChar (n % 10) :: ds) hcons

theorem natRepr_not_space (n : Nat) : ∀ c ∈ (Nat.repr n).data, pyIsSpace c = false := by
  intro c hc
  exact toDigitsCore_not_space (n + 1) n [] (by intro c hc; simp at hc) c hc

theorem intRepr_not_space (n : Int) : ∀ c ∈ (Int.repr n).data, pyIsSpace c = false := by
  intro c hc
  cases n with
  | ofNat m => exact natRepr_not_space m c hc
  | negSucc m =>
      rw [Int.repr] at hc
      rw [String.data_append] at hc
      rcases List.mem_append.mp hc with h | h
      · simp at h
        rw [h]
        rfl
      · exact natRepr_not_space (m + 1) c h

theorem pyStrip_intRepr (n : Int) : pyStrip (Int.repr n) = Int.repr n :=
  pyStrip_eq_self _ (intRepr_not_space n)

theorem mem_insertSorted (x a : String) :
    ∀ l : List String, (a ∈ insertSorted x l ↔ a = x ∨ a ∈ l)
  | [] => by simp [insertSorted]
  | y :: rest => by
      rw [insertSorted]
      by_cases hxy : pyStrLt y x = true
      · rw [if_pos hxy]
        simp only [List.mem_cons, mem_insertSorted x a rest]
        tauto
      · rw [if_neg hxy]
        simp [List.mem_cons]

theorem mem_sortStrings (a : String) : ∀ l : List String, (a ∈ sortStrings l ↔ a ∈ l)
  | [] => Iff.rfl
  | x :: rest => by
      rw [sortStrings]
      rw [mem_insertSorted x a (sortStrings rest)]
      simp only [List.mem_cons, mem_sortStrings a rest]

theorem mem_dedupKeys (a : String) : ∀ l : List String, (a ∈ dedupKeys l ↔ a ∈ l)
  | [] => Iff.rfl
  | x :: rest => by
      rw [dedupKeys]
      by_cases hx : x ∈ rest
      · rw [if_pos hx]
        rw [mem_dedupKeys a rest]
        constructor
        · intro h
          exact List.mem_cons_of_mem x h
        · intro h
          rcases List.mem_cons.mp h with h | h
          · rw [h]; exact hx
          · exact h
      · rw [if_neg hx]
        simp only [List.mem_cons, mem_dedupKeys a rest]

theorem mem_extraErrors (declared : List String) (rec : RawRec) (name : String)
    (h1 : name ∈ keysOf rec) (h2 : name ∉ declared) :
    VErr.mk [.fld name] .extraForbidden ∈ extraErrors declared rec := by
  unfold extraErrors
  refine List.mem_map_of_mem _ ?_
  rw [mem_sortStrings, mem_dedupKeys]
  rw [List.mem_filter]
  refine ⟨h1, ?_⟩
  simpa using h2

theorem combine2_ex_mem (f : α → β → γ) (ra : Except (List VErr) α)
    (rb : Except (List VErr) β) (ex : List VErr) (e : VErr) (he : e ∈ ex) :
    ∃ es, combine2 f ra rb ex = .error es ∧ e ∈ es := by
  have hne : ex.isEmpty = false := by
    cases ex with
    | nil => cases he
    | cons _ _ => rfl
  cases ra with
  | ok a =>
      cases rb with
      | ok b => exact ⟨ex, by simp [combine2, hne], he⟩
      | error eb => exact ⟨eb ++ ex, by simp [combine2], List.mem_append_right _ he⟩
  | error ea =>
      cases rb with
      | ok b => exact ⟨ea ++ ex, by simp [combine2], List.mem_append_right _ he⟩
      | error eb =>
          exact ⟨ea ++ eb ++ ex, by simp [combine2], List.mem_append_right _ he⟩

theorem combine2_fst_mem (f : α → β → γ) (ra : Except (List VErr) α)
    (rb : Except (List VErr) β) (ex : List VErr) (ea : List VErr) (e : VErr)
    (h : ra = .error ea) (he : e ∈ ea) :
    ∃ es, combine2 f ra rb ex = .error es ∧ e ∈ es := by
  subst h
  cases rb with
  | ok b => exact ⟨ea ++ ex, by simp [combine2], List.mem_append_left _ he⟩
  | error eb =>
      exact ⟨ea ++ eb ++ ex, by simp [combine2],
        List.mem_append_left _ (List.mem_append_left _ he)⟩

theorem combine2_snd_mem (f : α → β → γ) (ra : Except (List VErr) α)
    (rb : Except (List VErr) β) (ex : List VErr) (eb : List VErr) (e : VErr)
    (h : rb = .error eb) (he : e ∈ eb) :
    ∃ es, combine2 f ra rb ex = .error es ∧ e ∈ es := by
  subst h
  cases ra with
  | ok a => exact ⟨eb ++ ex, by simp [combine2], List.mem_append_left _ he⟩
  | error ea =>
      exact ⟨ea ++ eb ++ ex, by simp [combine2],
        List.mem_append_left _ (List.mem_append_right _ he)⟩

theorem combine1_ex_mem (f : α → γ) (ra : Except (List VErr) α) (ex : List VErr)
    (e : VErr) (he : e ∈ ex) :
    ∃ es, combine1 f ra ex = .error es ∧ e ∈ es := by
  have hne : ex.isEmpty = false := by
    cases ex with
    | nil => cases he
    | cons _ _ => rfl
  cases ra with
  | ok a => exact ⟨ex, by simp [combine1, hne], he⟩
  | error ea => exact ⟨ea ++ ex, by simp [combine1], List.mem_append_right _ he⟩

theorem combine1_fst_mem (f : α → γ) (ra : Except (List VErr) α) (ex : List VErr)
    (ea : List VErr) (e : VErr) (h : ra = .error ea) (he : e ∈ ea) :
    ∃ es, combine1 f ra ex = .error es ∧ e ∈ es := by
  subst h
  exact ⟨ea ++ ex, by simp [combine1], List.mem_append_left _ he⟩

theorem combine0_ex_mem (c : γ) (ex : List VErr) (e : VErr) (he : e ∈ ex) :
    ∃ es, combine0 c ex = .error es ∧ e ∈ es := by
  have hne : ex.isEmpty = false := by
    cases ex with
    | nil => cases he
    | cons _ _ => rfl
  exact ⟨ex, by simp [combine0, hne], he⟩

/-- C1: for every Entity Type and every raw record that contains a field name
not declared on that type, validation fails -- no instance is produced -- and
the error list contains the extra-field (UnknownField) error naming exactly
that field. -/
theorem validate_unknown_field_fails (t : EntityType) (rec : RawRec) (name : String)
    (h1 : name ∈ keysOf rec) (h2 : name ∉ declaredNames t) :
    ∃ es, validateData t rec = .error es ∧ VErr.mk [.fld name] .extraForbidden ∈ es := by
  cases t with
  | generator =>
      exact combine2_ex_mem Generator.mk (strField "uid" rec) (strField "bus" rec)
        (extraErrors ["uid", "bus"] rec) _ (mem_extraErrors ["uid", "bus"] rec name h1 h2)
  | network =>
      exact combine1_ex_mem Network.mk (genListField "generators" rec)
        (extraErrors ["generators"] rec) _
        (mem_extraErrors ["generators"] rec name h1 h2)
  | scenario =>
      exact combine0_ex_mem Scenario.mk (extraErrors [] rec) _
        (mem_extraErrors [] rec name h1 h2)
  | model =>
      exact combine2_ex_mem Model.mk
        (subModelField "network" Network.validateRec rec)
        (subModelField "scenario" Scenario.validateRec rec)
        (extraErrors ["network", "scenario"] rec) _
        (mem_extraErrors ["network", "scenario"] rec name h1 h2)

/-- Witness for C1 at the spec's own example: Generator with the undeclared
field "capacity". -/
theorem validate_unknown_field_fails_witness :
    ∃ es, validateData .generator
        [("uid", .str " G1 "), ("bus", .str "B1"), ("capacity", .int 100)] = .error es ∧
      VErr.mk [.fld "capacity"] .extraForbidden ∈ es :=
  validate_unknown_field_fails .generator
    [("uid", .str " G1 "), ("bus", .str "B1"), ("capacity", .int 100)] "capacity"
    (by decide) (by decide)

/-- C3: after any load call -- whether it returns an instance or fails with
any error -- the working directory (the Resolution Context base) of the
resulting process state equals its value immediately before the call: the
finally block restores it on every exit path. -/
theorem load_restores_cwd (t : EntityType) (w : World) (filename : PyPath) :
    (load t w filename).2.cwd = w.cwd := rfl

/-- C6 (code bug): schema_json never returns the schema text: every call,
for every Entity Type, alias flag and indent, fails with NameError for the
undefined ExtendedJSONEncoder. -/
theorem schema_json_always_nameError (t : EntityType) (b : Bool) (i : Option Nat) :
    schema_json t b i = .error (.nameError "ExtendedJSONEncoder" none) := rfl

/-- C5 (code bug): every failure mode of load surfaces NameError -- the
except clause names ValidationError, which is never imported -- instead of
the read, parse, or validation error itself, which survives only as the
NameError's implicit context: shown at a world where the file is missing,
where it holds invalid JSON, and where its JSON fails validation. -/
theorem load_failures_surface_nameError :
    (load .generator ⟨"/base", []⟩ ⟨"/d", "f.json"⟩).1
      = .error (.nameError "ValidationError" (some .osError)) ∧
    (load .generator ⟨"/base", [(("/d", "f.json"), .invalidJson)]⟩ ⟨"/d", "f.json"⟩).1
      = .error (.nameError "ValidationError" (some .jsonDecodeError)) ∧
    (load .generator ⟨"/base", [(("/d", "f.json"), .jsonContent (.obj []))]⟩
        ⟨"/d", "f.json"⟩).1
      = .error (.nameError "ValidationError" (some (.validationError
          [⟨[.fld "uid"], .missing⟩, ⟨[.fld "bus"], .missing⟩]))) :=
  ⟨rfl, rfl, rfl⟩

/-- C9: a number supplied for the string fields uid or bus is coerced by the
str validator to its decimal rendering (Python str, modelled by Int.repr)
and validation succeeds, instead of failing with a type error. -/
theorem validate_number_coerced_to_string (n : Int) (s : String) :
    validateData .generator [("uid", .int n), ("bus", .str s)]
      = .ok ⟨Int.repr n, pyStrip s⟩ ∧
    validateData .generator [("uid", .str s), ("bus", .int n)]
      = .ok ⟨pyStrip s, Int.repr n⟩ := by
  constructor
  · show combine2 Generator.mk (.ok (pyStrip (Int.repr n))) (.ok (pyStrip s)) []
      = .ok ⟨Int.repr n, pyStrip s⟩
    rw [pyStrip_intRepr]
    rfl
  · show combine2 Generator.mk (.ok (pyStrip s)) (.ok (pyStrip (Int.repr n))) []
      = .ok ⟨pyStrip s, Int.repr n⟩
    rw [pyStrip_intRepr]
    rfl

theorem strField_missing (name : String) (rec : RawRec)
    (h : lookupRec rec name = none) :
    strField name rec = .error [⟨[.fld name], .missing⟩] := by
  unfold strField
  rw [h]

theorem strField_type_error (name : String) (rec : RawRec) (v : Json) (k : ErrKind)
    (hv : lookupRec rec name = some v) (hk : str_validator v = .error k) :
    strField name rec = .error [⟨[.fld name], k⟩] := by
  unfold strField
  rw [hv]
  show (match str_validator v with
    | Except.ok s => (Except.ok (pyStrip s) : Except (List VErr) String)
    | Except.error k => Except.error [VErr.mk [Loc.fld name] k])
      = Except.error [VErr.mk [Loc.fld name] k]
  rw [hk]

theorem genListField_missing (name : String) (rec : RawRec)
    (h : lookupRec rec name = none) :
    genListField name rec = .error [⟨[.fld name], .missing⟩] := by
  unfold genListField
  rw [h]

theorem subModelField_missing (name : String)
    (validateSub : RawRec → Except (List VErr) α) (rec : RawRec)
    (h : lookupRec rec name = none) :
    subModelField name validateSub rec = .error [⟨[.fld name], .missing⟩] := by
  unfold subModelField
  rw [h]

theorem generator_missing_mem (name : String) (rec : RawRec)
    (hdecl : name = "uid" ∨ name = "bus") (habs : lookupRec rec name = none) :
    ∃ es, Generator.validateRec rec = .error es ∧ VErr.mk [.fld name] .missing ∈ es := by
  rcases hdecl with h | h
  · subst h
    exact combine2_fst_mem Generator.mk (strField "uid" rec) (strField "bus" rec)
      (extraErrors ["uid", "bus"] rec) [⟨[.fld "uid"], .missing⟩] _
      (strField_missing "uid" rec habs) (by simp)
  · subst h
    exact combine2_snd_mem Generator.mk (strField "uid" rec) (strField "bus" rec)
      (extraErrors ["uid", "bus"] rec) [⟨[.fld "bus"], .missing⟩] _
      (strField_missing "bus" rec habs) (by simp)

/-- C4 (amended): for every Entity Type with a declared required field F,
validating a record that omits F fails with a missing-field error at F; and
a declared string field supplied with a value the string validator rejects
(null, a sequence, or a mapping) fails with the corresponding type error at
F.  (As stated the claim is false: numbers and booleans, though not of
string semantic type, are coerced rather than rejected -- see the
counterexample.) -/
theorem validate_missing_and_type_mismatch :
    (∀ (t : EntityType) (name : String) (rec : RawRec),
        name ∈ declaredNames t → lookupRec rec name = none →
        ∃ es, validateData t rec = .error es ∧ VErr.mk [.fld name] .missing ∈ es) ∧
    (∀ (t : EntityType) (name : String) (rec : RawRec) (v : Json) (k : ErrKind),
        (name, FKind.fstr) ∈ fieldKinds t → lookupRec rec name = some v →
        str_validator v = .error k →
        ∃ es, validateData t rec = .error es ∧ VErr.mk [.fld name] k ∈ es) := by
  constructor
  · intro t name rec hdecl habs
    cases t with
    | generator =>
        have h : name = "uid" ∨ name = "bus" := by
          simpa [declaredNames, fieldKinds] using hdecl
        exact generator_missing_mem name rec h habs
    | network =>
        have h : name = "generators" := by
          simpa [declaredNames, fieldKinds] using hdecl
        subst h
        exact combine1_fst_mem Network.mk (genListField "generators" rec)
          (extraErrors ["generators"] rec) [⟨[.fld "generators"], .missing⟩] _
          (genListField_missing "generators" rec habs) (by simp)
    | scenario => simp [declaredNames, fieldKinds] at hdecl
    | model =>
        have h : name = "network" ∨ name = "scenario" := by
          simpa [declaredNames, fieldKinds] using hdecl
        rcases h with h | h
        · subst h
          exact combine2_fst_mem Model.mk
            (subModelField "network" Network.validateRec rec)
            (subModelField "scenario" Scenario.validateRec rec)
            (extraErrors ["network", "scenario"] rec)
            [⟨[.fld "network"], .missing⟩] _
            (subModelField_missing "network" Network.validateRec rec habs) (by simp)
        · subst h
          exact combine2_snd_mem Model.mk
            (subModelField "network" Network.validateRec rec)
            (subModelField "scenario" Scenario.validateRec rec)
            (extraErrors ["network", "scenario"] rec)
            [⟨[.fld "scenario"], .missing⟩] _
            (subModelField_missing "scenario" Scenario.validateRec rec habs) (by simp)
  · intro t name rec v k hdecl hv hk
    cases t with
    | generator =>
        have h : name = "uid" ∨ name = "bus" := by
          simpa [fieldKinds, Prod.mk.injEq] using hdecl
        rcases h with h | h
        · subst h
          exact combine2_fst_mem Generator.mk (strField "uid" rec) (strField "bus" rec)
            (extraErrors ["uid", "bus"] rec) [⟨[.fld "uid"], k⟩] _
            (strField_type_error "uid" rec v k hv hk) (by simp)
        · subst h
          exact combine2_snd_mem Generator.mk (strField "uid" rec) (strField "bus" rec)
            (extraErrors ["uid", "bus"] rec) [⟨[.fld "bus"], k⟩] _
            (strField_type_error "bus" rec v k hv hk) (by simp)
    | network => simp [fieldKinds, Prod.mk.injEq] at hdecl
    | scenario => simp [fieldKinds] at hdecl
    | model => simp [fieldKinds, Prod.mk.injEq] at hdecl

/-- Witness for C4 at the spec's example record missing "bus", and at a
Generator record whose uid is a list (rejected with type_error.str). -/
theorem validate_missing_and_type_mismatch_witness :
    (∃ es, validateData .generator [("uid", .str "G1")] = .error es ∧
        VErr.mk [.fld "bus"] .missing ∈ es) ∧
    (∃ es, validateData .generator [("uid", .arr []), ("bus", .str "B1")] = .error es ∧
        VErr.mk [.fld "uid"] .strType ∈ es) :=
  ⟨validate_missing_and_type_mismatch.1 .generator "bus" [("uid", .str "G1")]
      (by decide) rfl,
   validate_missing_and_type_mismatch.2 .generator "uid"
      [("uid", .arr []), ("bus", .str "B1")] (.arr []) .strType (by decide) rfl rfl⟩

/-- C4 counterexample: the integer 123 is not of string semantic type, yet
supplying it for the declared required string field uid does not fail with a
type error: validation succeeds, coercing it to "123". -/
theorem validate_wrong_type_counterexample :
    specIsString (.int 123) = false ∧
    validateData .generator [("uid", .int 123), ("bus", .str "B1")]
      = .ok ⟨"123", "B1"⟩ :=
  ⟨rfl, rfl⟩

theorem genElem_obj_mem (name : String) (i : Nat) (kvs : RawRec) (es0 : List VErr)
    (e : VErr) (h : Generator.validateRec kvs = .error es0) (he : e ∈ es0) :
    ∃ es, genElem name i (.obj kvs) = .error es ∧
      VErr.mk ([.fld name, .idx i] ++ e.loc) e.kind ∈ es := by
  refine ⟨locPrefix [.fld name, .idx i] es0, ?_, ?_⟩
  · simp only [genElem, modelValue, h]
  · unfold locPrefix
    exact List.mem_map_of_mem _ he

theorem genElems_second_mem (name : String) (x0 x1 : Json) (es1 : List VErr) (e : VErr)
    (h : genElem name 1 x1 = .error es1) (he : e ∈ es1) :
    ∃ es, genElems name 0 [x0, x1] = .error es ∧ e ∈ es := by
  cases hx0 : genElem name 0 x0 with
  | ok g =>
      refine ⟨es1, ?_, he⟩
      simp only [genElems, show (0 + 1 : Nat) = 1 from rfl]
      rw [hx0, h]
  | error es0 =>
      refine ⟨es0 ++ es1, ?_, List.mem_append_right _ he⟩
      simp only [genElems, show (0 + 1 : Nat) = 1 from rfl]
      rw [hx0, h]

/-- C7 (amended): for any raw Network record whose generators value is a
sequence of two generator dicts where the second omits the required field
bus, validation fails and the error list contains the missing-bus error at
path generators[1].bus.  (The "stops at the first failing element" part of
the claim is false: pydantic validates every element and reports each
failing element -- see the counterexample.) -/
theorem network_second_generator_missing_bus (rec0 rec1 : RawRec)
    (h : lookupRec rec1 "bus" = none) :
    ∃ es, validateData .network [("generators", .arr [.obj rec0, .obj rec1])]
        = .error es ∧
      VErr.mk [.fld "generators", .idx 1, .fld "bus"] .missing ∈ es := by
  obtain ⟨es1, he1, hm1⟩ := generator_missing_mem "bus" rec1 (Or.inr rfl) h
  obtain ⟨es2, he2, hm2⟩ := genElem_obj_mem "generators" 1 rec1 es1 _ he1 hm1
  obtain ⟨es3, he3, hm3⟩ :=
    genElems_second_mem "generators" (.obj rec0) (.obj rec1) es2 _ he2 hm2
  exact combine1_fst_mem Network.mk
    (genListField "generators" [("generators", .arr [.obj rec0, .obj rec1])])
    (extraErrors ["generators"] [("generators", .arr [.obj rec0, .obj rec1])])
    es3 _ he3 hm3

/-- Witness for C7 at the spec's scenario: first generator complete, second
missing bus. -/
theorem network_second_generator_missing_bus_witness :
    ∃ es, validateData .network [("generators", .arr
        [.obj [("uid", .str "G1"), ("bus", .str "B1")], .obj [("uid", .str "G2")]])]
        = .error es ∧
      VErr.mk [.fld "generators", .idx 1, .fld "bus"] .missing ∈ es :=
  network_second_generator_missing_bus
    [("uid", .str "G1"), ("bus", .str "B1")] [("uid", .str "G2")] rfl

/-- C7 counterexample: with both generators missing bus, validation does not
stop at the first failing element (index 0): it validates every element and
reports both indices, so "stops at the first failing element" is false. -/
theorem network_reports_all_failing_elements_counterexample :
    validateData .network [("generators", .arr
        [.obj [("uid", .str "G1")], .obj [("uid", .str "G2")]])]
      = .error [⟨[.fld "generators", .idx 0, .fld "bus"], .missing⟩,
                ⟨[.fld "generators", .idx 1, .fld "bus"], .missing⟩] := rfl

mutual

theorem serialize_model_data_id : ∀ d : List (String × Json), serialize_model_data d = d
  | [] => rfl
  | (k, v) :: rest => by
      rw [serialize_model_data, serialize_model_item_id v, serialize_model_data_id rest]

theorem serialize_model_list_id : ∀ l : List Json, serialize_model_list l = l
  | [] => rfl
  | x :: rest => by
      rw [serialize_model_list, serialize_model_item_id x, serialize_model_list_id rest]

theorem serialize_model_item_id : ∀ v : Json, serialize_model_item v = v
  | .null => rfl
  | .bool _ => rfl
  | .int _ => rfl
  | .str _ => rfl
  | .arr xs => by rw [serialize_model_item, serialize_model_list_id xs]
  | .obj kvs => by rw [serialize_model_item, serialize_model_data_id kvs]

end

/-- C10: on canonical data -- mappings whose values are built from scalars,
lists and mappings, which is all the embedded value type contains --
serialize_model_data is the identity (same keys, structurally equal values),
and _serialize_model_item returns every value that is neither a mapping nor
a list (null, booleans, numbers, strings) unchanged. -/
theorem serialize_model_data_identity :
    (∀ d : List (String × Json),
        serialize_model_data d = d ∧ keysOf (serialize_model_data d) = keysOf d) ∧
    (∀ s, serialize_model_item (.str s) = .str s) ∧
    (∀ n, serialize_model_item (.int n) = .int n) ∧
    (∀ b, serialize_model_item (.bool b) = .bool b) ∧
    serialize_model_item .null = .null :=
  ⟨fun d => ⟨serialize_model_data_id d, by rw [serialize_model_data_id d]⟩,
   fun _ => rfl, fun _ => rfl, fun _ => rfl, rfl⟩

theorem filter_exclude_nil : ∀ d : RawRec,
    d.filter (fun kv => !(([] : List String).contains kv.1)) = d
  | [] => rfl
  | kv :: rest => by
      simp only [List.filter_cons]
      rw [filter_exclude_nil rest]
      rfl

theorem generator_wfB_eq (g : Generator) (h : Generator.wfB g = true) :
    pyStrip g.uid = g.uid ∧ pyStrip g.bus = g.bus := by
  simpa [Generator.wfB, Bool.and_eq_true, beq_iff_eq] using h

theorem generator_roundtrip (g : Generator) (b : Bool)
    (hu : pyStrip g.uid = g.uid) (hb : pyStrip g.bus = g.bus) :
    Generator.validateRec (g.dict_ b) = .ok g := by
  show combine2 Generator.mk (Except.ok (pyStrip g.uid)) (Except.ok (pyStrip g.bus))
      [] = .ok g
  rw [hu, hb]
  rfl

theorem genElems_roundtrip (b : Bool) :
    ∀ (i : Nat) (gs : List Generator),
      (∀ g ∈ gs, Generator.wfB g = true) →
      genElems "generators" i (gs.map (fun g => .obj (g.dict_ b))) = .ok gs
  | _, [], _ => rfl
  | i, g :: rest, h => by
      have hg := generator_wfB_eq g (h g (by simp))
      have h1 : genElem "generators" i (.obj (g.dict_ b)) = .ok g := by
        simp only [genElem, modelValue, generator_roundtrip g b hg.1 hg.2]
      have h2 := genElems_roundtrip b (i + 1) rest
        (fun g' hg' => h g' (List.mem_cons_of_mem _ hg'))
      simp only [List.map_cons, genElems]
      rw [h1, h2]

theorem network_roundtrip (n : Network) (b : Bool) (h : Network.wfB n = true) :
    Network.validateRec (n.dict_ b) = .ok n := by
  have hall : ∀ g ∈ n.generators, Generator.wfB g = true := by
    simpa [Network.wfB, List.all_eq_true] using h
  show combine1 Network.mk
      (genElems "generators" 0 (n.generators.map (fun g => .obj (g.dict_ b)))) []
      = .ok n
  rw [genElems_roundtrip b 0 n.generators hall]
  rfl

theorem subModelField_ok (name : String)
    (validateSub : RawRec → Except (List VErr) α) (rec : RawRec) (kvs : RawRec)
    (m : α) (hlook : lookupRec rec name = some (.obj kvs))
    (hsub : validateSub kvs = .ok m) :
    subModelField name validateSub rec = .ok m := by
  simp only [subModelField, hlook, modelValue, hsub]

theorem model_roundtrip (m : Model) (b : Bool) (h : Model.wfB m = true) :
    Model.validateRec (m.dict_ b) = .ok m := by
  have hn : Network.wfB m.network = true := by
    have h' := h
    simp only [Model.wfB, Bool.and_eq_true] at h'
    exact h'.1
  have h1 : subModelField "network" Network.validateRec (m.dict_ b) = .ok m.network :=
    subModelField_ok "network" Network.validateRec (m.dict_ b) (m.network.dict_ b)
      m.network rfl (network_roundtrip m.network b hn)
  have h2 : subModelField "scenario" Scenario.validateRec (m.dict_ b) = .ok m.scenario :=
    subModelField_ok "scenario" Scenario.validateRec (m.dict_ b) (m.scenario.dict_ b)
      m.scenario rfl rfl
  show combine2 Model.mk
      (subModelField "network" Network.validateRec (m.dict_ b))
      (subModelField "scenario" Scenario.validateRec (m.dict_ b))
      (extraErrors ["network", "scenario"] (m.dict_ b)) = .ok m
  rw [h1, h2]
  rfl

/-- C2: validating the serialization of a valid Model Instance -- one
reachable through validation, i.e. with whitespace-stripped string fields --
reproduces the instance field for field, for every Entity Type and for both
alias modes (no field declares an alias, so by_alias leaves keys unchanged). -/
theorem validate_serialize_roundtrip (t : EntityType) (b : Bool) (m : Inst t)
    (h : wfInst t m = true) :
    validateData t (serialize_model t m b []) = .ok m := by
  have hs : serialize_model t m b [] = instDict t m b := by
    unfold serialize_model
    rw [filter_exclude_nil, serialize_model_data_id]
  rw [hs]
  cases t with
  | generator =>
      have hg := generator_wfB_eq m h
      exact generator_roundtrip m b hg.1 hg.2
  | network => exact network_roundtrip m b h
  | scenario => rfl
  | model => exact model_roundtrip m b h

/-- Witness for C2: a Model holding one generator, serialized in both alias
modes and validated back to the same instance. -/
theorem validate_serialize_roundtrip_witness :
    validateData .model (serialize_model .model
        ⟨⟨[⟨"G1", "B1"⟩]⟩, ⟨⟩⟩ true []) = .ok ⟨⟨[⟨"G1", "B1"⟩]⟩, ⟨⟩⟩ ∧
    validateData .model (serialize_model .model
        ⟨⟨[⟨"G1", "B1"⟩]⟩, ⟨⟩⟩ false []) = .ok ⟨⟨[⟨"G1", "B1"⟩]⟩, ⟨⟩⟩ :=
  ⟨validate_serialize_roundtrip .model true ⟨⟨[⟨"G1", "B1"⟩]⟩, ⟨⟩⟩ rfl,
   validate_serialize_roundtrip .model false ⟨⟨[⟨"G1", "B1"⟩]⟩, ⟨⟩⟩ rfl⟩

theorem lookupRec_trimWith (f : String → Json → Json) :
    ∀ (rec : RawRec) (name : String),
      lookupRec (trimWith f rec) name = (lookupRec rec name).map (f name)
  | [], _ => rfl
  | (k, v) :: rest, name => by
      simp only [trimWith, List.map_cons]
      rw [lookupRec, lookupRec]
      by_cases hk : k = name
      · subst hk
        rw [if_pos rfl, if_pos rfl]
        rfl
      · rw [if_neg hk, if_neg hk]
        exact lookupRec_trimWith f rest name

theorem keysOf_trimWith (f : String → Json → Json) :
    ∀ rec : RawRec, keysOf (trimWith f rec) = keysOf rec
  | [] => rfl
  | (k, v) :: rest => by
      show k :: keysOf (trimWith f rest) = k :: keysOf rest
      rw [keysOf_trimWith f rest]

theorem extraErrors_trimWith (f : String → Json → Json) (declared : List String)
    (rec : RawRec) :
    extraErrors declared (trimWith f rec) = extraErrors declared rec := by
  unfold extraErrors
  rw [keysOf_trimWith]

theorem strField_trimWith (f : String → Json → Json) (name : String) (rec : RawRec)
    (hf : ∀ v, f name v = trimStrValue v) :
    strField name (trimWith f rec) = strField name rec := by
  simp only [strField, lookupRec_trimWith]
  cases hres : lookupRec rec name with
  | none => rfl
  | some v =>
      cases v with
      | str s => simp [hf (.str s), trimStrValue, str_validator, pyStrip_idem]
      | int n => simp [hf (.int n), trimStrValue]
      | bool b => simp [hf (.bool b), trimStrValue]
      | null => simp [hf .null, trimStrValue]
      | arr xs => simp [hf (.arr xs), trimStrValue]
      | obj kvs => simp [hf (.obj kvs), trimStrValue]

theorem generator_trim_eq (rec : RawRec) :
    Generator.validateRec (trimGeneratorRec rec) = Generator.validateRec rec := by
  unfold Generator.validateRec trimGeneratorRec
  rw [strField_trimWith genFieldTrim "uid" rec (fun v => rfl),
    strField_trimWith genFieldTrim "bus" rec (fun v => rfl),
    extraErrors_trimWith]

theorem genElem_trim (i : Nat) (x : Json) :
    genElem "generators" i (trimGenElement x) = genElem "generators" i x := by
  cases x with
  | obj kvs =>
      show genElem "generators" i (.obj (trimGeneratorRec kvs))
        = genElem "generators" i (.obj kvs)
      simp only [genElem, modelValue, generator_trim_eq]
  | str s => rfl
  | int n => rfl
  | bool b => rfl
  | null => rfl
  | arr xs => rfl

theorem genElems_trim : ∀ (i : Nat) (xs : List Json),
    genElems "generators" i (xs.map trimGenElement) = genElems "generators" i xs
  | _, [] => rfl
  | i, x :: rest => by
      simp only [List.map_cons, genElems]
      rw [genElem_trim i x, genElems_trim (i + 1) rest]

theorem genListField_trim (rec : RawRec) :
    genListField "generators" (trimWith networkFieldTrim rec)
      = genListField "generators" rec := by
  simp only [genListField, lookupRec_trimWith]
  cases hres : lookupRec rec "generators" with
  | none => rfl
  | some v =>
      cases v with
      | arr xs => simp [networkFieldTrim, trimGenListValue, genElems_trim]
      | str s => simp [networkFieldTrim, trimGenListValue]
      | int n => simp [networkFieldTrim, trimGenListValue]
      | bool b => simp [networkFieldTrim, trimGenListValue]
      | null => simp [networkFieldTrim, trimGenListValue]
      | obj kvs => simp [networkFieldTrim, trimGenListValue]

theorem network_trim_eq (rec : RawRec) :
    Network.validateRec (trimNetworkRec rec) = Network.validateRec rec := by
  unfold Network.validateRec trimNetworkRec
  rw [genListField_trim, extraErrors_trimWith]

theorem scenario_trim_eq (rec : RawRec) :
    Scenario.validateRec (trimScenarioRec rec) = Scenario.validateRec rec := by
  unfold Scenario.validateRec trimScenarioRec
  rw [extraErrors_trimWith]

theorem subModelField_trim (name : String)
    (validateSub : RawRec → Except (List VErr) α) (f : String → Json → Json)
    (g : RawRec → RawRec) (hf : ∀ v, f name v = trimObjWith g v)
    (hsub : ∀ kvs, validateSub (g kvs) = validateSub kvs) (rec : RawRec) :
    subModelField name validateSub (trimWith f rec)
      = subModelField name validateSub rec := by
  simp only [subModelField, lookupRec_trimWith]
  cases hres : lookupRec rec name with
  | none => rfl
  | some v =>
      cases v with
      | obj kvs => simp [hf (.obj kvs), trimObjWith, modelValue, hsub kvs]
      | str s => simp [hf (.str s), trimObjWith]
      | int n => simp [hf (.int n), trimObjWith]
      | bool b => simp [hf (.bool b), trimObjWith]
      | null => simp [hf .null, trimObjWith]
      | arr xs => simp [hf (.arr xs), trimObjWith]

theorem model_trim_eq (rec : RawRec) :
    Model.validateRec (trimModelRec rec) = Model.validateRec rec := by
  unfold Model.validateRec trimModelRec
  rw [subModelField_trim "network" Network.validateRec modelFieldTrim trimNetworkRec
      (fun v => rfl) network_trim_eq rec,
    subModelField_trim "scenario" Scenario.validateRec modelFieldTrim trimScenarioRec
      (fun v => rfl) scenario_trim_eq rec,
    extraErrors_trimWith]

/-- C8 (amended): for every Entity Type, validating a raw record gives
exactly the same outcome as validating the record with the values of its
declared string fields pre-trimmed -- applied recursively through
nested-model mapping values and through sequence elements that are
mappings; in particular the spec's example record with padded uid validates
to the trimmed instance.  (As stated, with every string value pre-trimmed,
the claim is false: a string that the dict() coercion of a non-mapping
nested value turns into a field name changes validation when trimmed --
see the counterexample.) -/
theorem validate_whitespace_normalization :
    (∀ (t : EntityType) (rec : RawRec),
        validateData t rec = validateData t (trimByType t rec)) ∧
    validateData .generator [("uid", .str " G1 "), ("bus", .str "B1")]
      = .ok ⟨"G1", "B1"⟩ := by
  constructor
  · intro t rec
    cases t with
    | generator => exact (generator_trim_eq rec).symm
    | network => exact (network_trim_eq rec).symm
    | scenario => exact (scenario_trim_eq rec).symm
    | model => exact (model_trim_eq rec).symm
  · rfl

/-- C8 counterexample: pre-trimming every string value does change the
outcome of validation.  The generators sequence below holds one element
that is not a mapping but a list of key-value pairs, which pydantic's
BaseModel.validate coerces with dict(): untrimmed, the coerced dict has the
padded keys " uid " and " bus ", so validation fails (missing uid and bus,
extra fields); with every string pre-trimmed the keys become uid and bus
and validation succeeds.  So the claim's universal equality between
validating a record and validating its fully pre-trimmed form is false. -/
theorem validate_whitespace_counterexample :
    validateData .network
        [("generators", .arr [.arr [.arr [.str " uid ", .str " G1 "],
                                    .arr [.str " bus ", .str "B1"]]])]
      = .error
          [⟨[.fld "generators", .idx 0, .fld "uid"], .missing⟩,
           ⟨[.fld "generators", .idx 0, .fld "bus"], .missing⟩,
           ⟨[.fld "generators", .idx 0, .fld " bus "], .extraForbidden⟩,
           ⟨[.fld "generators", .idx 0, .fld " uid "], .extraForbidden⟩] ∧
    validateData .network
        (deepTrimRec [("generators", .arr [.arr [.arr [.str " uid ", .str " G1 "],
                                                .arr [.str " bus ", .str "B1"]]])])
      = .ok ⟨[⟨"G1", "B1"⟩]⟩ :=
  ⟨rfl, rfl⟩
